import Mathlib

/-!
Verification of the Sam's Club gas-price tracker core
(`sams_gas_prices.py`): the history store (SQLite tables modelled as
in-memory lists of rows), the extraction pipeline (the HTML/transport
collaborators abstracted as documents answering selector queries,
following the spec's out-of-scope boundary "fetch(url) -> parsed
document or failure"), the orchestrator's reconciliation step, and the
aggregator.

Modelling conventions:
* ISO-8601 date strings and HH:MM:SS time strings compare
  lexicographically iff chronologically, so `scraped_date` and
  `scraped_time` are modelled as `Nat`; SQL `ORDER BY ... DESC` becomes
  sorting by the (date, time) key, descending.
* `sqlite3` INSERT appends a row; nothing in the program deletes or
  updates `price_history` or `scraping_log` rows.
* "today" and the current clock time are passed explicitly to each
  operation instead of being read from the system clock.
-/

namespace Sams

/-- One row of the `price_history` table. -/
structure PriceRow where
  club_name : String
  fuel_type : String
  price : String
  scraped_date : Nat
  scraped_time : Nat
  source : String
deriving DecidableEq

/-- One row of the `scraping_log` table. -/
structure LogRow where
  club_name : String
  scraped_date : Nat
  scraped_time : Nat
  success : Bool
  error_message : Option String
  prices_found : Nat
deriving DecidableEq

/-- One row of the `clubs` table. -/
structure ClubRow where
  name : String
  address : String
  club_url : String
  fuel_url : String
  created_date : Nat × Nat
  last_updated : Nat × Nat
deriving DecidableEq

/-- The SQLite database `sams_club_history.db`. -/
structure DB where
  clubs : List ClubRow
  price_history : List PriceRow
  scraping_log : List LogRow
deriving DecidableEq

def emptyDB : DB := ⟨[], [], []⟩

/-- `check_if_scraped_today`: true iff at least one `scraping_log` row
exists for this club and today's date (`SELECT COUNT(*) ... > 0`). -/
def check_if_scraped_today (db : DB) (club_name : String) (today : Nat) : Bool :=
  decide (0 < db.scraping_log.countP
    (fun r => r.club_name == club_name && r.scraped_date == today))

/-- `log_scraping_attempt`: INSERT one row into `scraping_log`. -/
def log_scraping_attempt (db : DB) (club_name : String) (today now : Nat)
    (success : Bool) (error_message : Option String) (prices_found : Nat) : DB :=
  { db with scraping_log :=
      db.scraping_log ++ [⟨club_name, today, now, success, error_message, prices_found⟩] }

/-- The four category strings `save_price_data` (and
`identify_lowest_prices`) filter out:
`["Error", "No prices found", "Unknown", "No prices available"]`. -/
def filteredCategories : List String :=
  ["Error", "No prices found", "Unknown", "No prices available"]

/-- `save_price_data`: for each `(fuel_type, price)` row whose category
is not in `filteredCategories`, INSERT into `price_history` with source
`'scraped'`; returns immediately when the list is empty. -/
def save_price_data (db : DB) (club_name : String) (today now : Nat)
    (prices : List (String × String)) : DB :=
  if prices.isEmpty then db
  else
    let kept := prices.filter (fun p => !(filteredCategories.contains p.1))
    { db with price_history :=
        db.price_history ++ kept.map (fun p => ⟨club_name, p.1, p.2, today, now, "scraped"⟩) }

/-- `add_manual_prices`: INSERT a single `price_history` row with source
`'manual'`, unconditionally. -/
def add_manual_prices (db : DB) (club_name fuel_type price : String)
    (today now : Nat) : DB :=
  { db with price_history :=
      db.price_history ++ [⟨club_name, fuel_type, price, today, now, "manual"⟩] }

/-- The dict argument of `save_club_info` (name/address/club_url/fuel_url). -/
structure ClubInfo where
  name : String
  address : String
  club_url : String
  fuel_url : String
deriving DecidableEq

/-- `save_club_info`: UPDATE the row whose name matches, else INSERT. -/
def save_club_info (db : DB) (info : ClubInfo) (today now : Nat) : DB :=
  if db.clubs.any (fun c => c.name == info.name) then
    { db with clubs := db.clubs.map (fun c =>
        if c.name == info.name then
          { c with address := info.address, club_url := info.club_url,
                   fuel_url := info.fuel_url, last_updated := (today, now) }
        else c) }
  else
    { db with clubs := db.clubs ++
        [⟨info.name, info.address, info.club_url, info.fuel_url, (today, now), (today, now)⟩] }

/-! ### `get_latest_prices` -/

/-- Descending (date, time) order used by
`ORDER BY scraped_date DESC, scraped_time DESC`: `keyGe a b` holds when
row `a` sorts no later than row `b` in the descending output, i.e. `a`'s
(date, time) key is ≥ `b`'s. -/
def keyGe (a b : PriceRow) : Prop :=
  b.scraped_date < a.scraped_date ∨
    (b.scraped_date = a.scraped_date ∧ b.scraped_time ≤ a.scraped_time)

instance : DecidableRel keyGe := fun a b => by
  unfold keyGe; infer_instance

instance : IsTotal PriceRow keyGe where
  total a b := by
    unfold keyGe
    rcases Nat.lt_trichotomy a.scraped_date b.scraped_date with h | h | h
    · exact Or.inr (Or.inl h)
    · rcases Nat.le_total a.scraped_time b.scraped_time with ht | ht
      · exact Or.inr (Or.inr ⟨h, ht⟩)
      · exact Or.inl (Or.inr ⟨h.symm, ht⟩)
    · exact Or.inl (Or.inl h)

instance : IsTrans PriceRow keyGe where
  trans a b c hab hbc := by
    unfold keyGe at *
    rcases hab with h1 | ⟨e1, t1⟩
    · rcases hbc with h2 | ⟨e2, t2⟩
      · exact Or.inl (h2.trans h1)
      · exact Or.inl (e2 ▸ h1)
    · rcases hbc with h2 | ⟨e2, t2⟩
      · exact Or.inl (e1 ▸ h2)
      · exact Or.inr ⟨e2.trans e1, t2.trans t1⟩

/-- The Python dict build in `get_latest_prices`: walk the rows in
order, keeping only the first `(fuel_type, price)` seen per
`fuel_type`; dict items come out in insertion order. -/
def dedupFirst (acc : List (String × String)) :
    List (String × String) → List (String × String)
  | [] => acc
  | (c, v) :: rest =>
    if (acc.map Prod.fst).contains c then dedupFirst acc rest
    else dedupFirst (acc ++ [(c, v)]) rest

/-- `get_latest_prices`: `SELECT fuel_type, price FROM price_history
WHERE club_name = ? ORDER BY scraped_date DESC, scraped_time DESC
LIMIT 10`, then first-per-fuel-type dict grouping. -/
def get_latest_prices (db : DB) (club_name : String) : List (String × String) :=
  let rows := db.price_history.filter (fun r => r.club_name == club_name)
  let sorted := (List.insertionSort keyGe rows).take 10
  dedupFirst [] (sorted.map (fun r => (r.fuel_type, r.price)))

/-! ### Orchestrator reconciliation (`scrape_all_clubs`, non-cached branch) -/

/-- The success test of `scrape_all_clubs`:
`prices and not (len(prices) == 1 and prices[0][0] in ["Error", "No prices found"])`. -/
def classify_success (prices : List (String × String)) : Bool :=
  match prices with
  | [] => false
  | [(c, _)] => !(["Error", "No prices found"].contains c)
  | _ => true

/-- Lines 716–739 of `scrape_all_clubs` for one really-scraped club:
classify the extracted `prices`, on failure fall back to cached prices
(or the `("No prices available", "NAN")` sentinel), then
`log_scraping_attempt`, `save_club_info`, `save_price_data`.
Returns the new database, the success flag, and the final price list. -/
def reconcile (db : DB) (name : String) (today now : Nat) (info : ClubInfo)
    (prices : List (String × String)) : DB × Bool × List (String × String) :=
  let success := classify_success prices
  let outcome :=
    if success then (prices, (none : Option String), prices.length)
    else
      let cached := get_latest_prices db name
      (if cached.isEmpty then [("No prices available", "NAN")] else cached,
        some "No valid prices found", 0)
  let db1 := log_scraping_attempt db name today now success outcome.2.1 outcome.2.2
  let db2 := save_club_info db1 info today now
  let db3 := save_price_data db2 name today now outcome.1
  (db3, success, outcome.1)

/-! ### Address extraction (`get_club_info`)

The HTTP/HTML collaborators are out of scope and are abstracted: a
fetched page is a `ClubDoc` answering `select_one(selector)` queries
with the matched element's stripped text, plus the result of the
`re.search` for the `City, ST ZIP` pattern over the page text. -/

def BASE_URL : String := "https://www.samsclub.com"

/-- The `KNOWN_ADDRESSES` table. -/
def KNOWN_ADDRESSES : List (String × String) :=
  [("Avondale", "Avondale, AZ"), ("Bullhead City", "Bullhead City, AZ"),
   ("Chandler", "Chandler, AZ"), ("Flagstaff", "Flagstaff, AZ"),
   ("Gilbert (1)", "Gilbert, AZ"), ("Gilbert (2)", "Gilbert, AZ"),
   ("Glendale", "Glendale, AZ"), ("Phoenix (1)", "Phoenix, AZ"),
   ("Phoenix (2)", "Phoenix, AZ"), ("Surprise", "Surprise, AZ"),
   ("Tempe", "Tempe, AZ"), ("Tucson", "Tucson, AZ"), ("Yuma", "Yuma, AZ")]

/-- `KNOWN_ADDRESSES.get(club_name, "NAN")`. -/
def knownAddress (club_name : String) : String :=
  match KNOWN_ADDRESSES.find? (fun p => p.1 == club_name) with
  | some p => p.2
  | none => "NAN"

/-- The ordered `address_selectors` list of `get_club_info`. -/
def address_selectors : List String :=
  ["address", "[data-testid*='address']", ".club-address", ".address",
   "[class*='address']"]

/-- A fetched club page, abstracted to the queries `get_club_info`
makes of it: `selectOne s` is the stripped text of
`soup.select_one(s)` (none when no element matches), and
`addrRegexHit` is the first `City, ST ZIP`-shaped token `re.search`
finds in the full page text. -/
structure ClubDoc where
  selectOne : String → Option String
  addrRegexHit : Option String

/-- The selector loop of `get_club_info`: first selector whose
`select_one` finds an element wins (its text, even if empty). -/
def firstSelectorHit (doc : ClubDoc) : List String → Option String
  | [] => none
  | s :: rest =>
    match doc.selectOne s with
    | some t => some t
    | none => firstSelectorHit doc rest

/-- The dict `get_club_info` returns (`fuel_url` is added later by the
orchestrator). -/
structure ClubPageInfo where
  name : String
  address : String
  club_url : String
deriving DecidableEq

/-- `get_club_info`: on a fetched page, start from the known address
(default `"NAN"`), let the first matching structural selector override
it, and run the regex scan only when the address is still `"NAN"`; on
fetch failure, fall back to the known address. -/
def get_club_info (fetched : Option ClubDoc) (club_url club_name : String) :
    ClubPageInfo :=
  match fetched with
  | none => ⟨club_name, knownAddress club_name, club_url⟩
  | some doc =>
    let address0 := knownAddress club_name
    let address1 :=
      match firstSelectorHit doc address_selectors with
      | some t => t
      | none => address0
    let address2 :=
      if address1 == "NAN" then
        match doc.addrRegexHit with
        | some m => m
        | none => address1
      else address1
    ⟨club_name, address2, club_url⟩

/-! ### Fuel-page discovery (`get_fuel_link`) -/

/-- Boolean prefix test on character lists. -/
def leadsWith : List Char → List Char → Bool
  | [], _ => true
  | _ :: _, [] => false
  | p :: ps, c :: cs => p == c && leadsWith ps cs

/-- Boolean substring test on character lists. -/
def occursIn (pat : List Char) : List Char → Bool
  | [] => leadsWith pat []
  | c :: cs => leadsWith pat (c :: cs) || occursIn pat cs

/-- Python's `pat in s` on strings. -/
def strContains (s pat : String) : Bool := occursIn pat.data s.data

/-- A fetched club page, abstracted to the queries `get_fuel_link`
makes: for each of the four fuel-link selectors, in order, the `href`
of the matched anchor (none when no anchor matches or it has no
`href`). -/
structure LinkDoc where
  fuelHrefs : List (Option String)

/-- The selector loop of `get_fuel_link`: first anchor with a truthy
(non-empty) `href` wins. -/
def firstFuelHref : List (Option String) → Option String
  | [] => none
  | some h :: rest => if h == "" then firstFuelHref rest else some h
  | none :: rest => firstFuelHref rest

/-- Python's `s.startswith(pre)`. -/
def strLeads (s pre : String) : Bool := leadsWith pre.data s.data

/-- The href normalisation in `get_fuel_link`. -/
def resolveHref (href : String) : String :=
  if strLeads href "/" then BASE_URL ++ href
  else if strLeads href "http" then href
  else BASE_URL ++ "/" ++ href

/-- `get_fuel_link`: if the page was fetched and a selector hit, return
the resolved href; otherwise (selector miss **or** fetch failure) fall
through to synthesizing `club_url + "/fuel-center"` whenever the URL
contains `"/club/"`; `none` (no fuel page) only when that also fails. -/
def get_fuel_link (fetched : Option LinkDoc) (club_url : String) : Option String :=
  let fromPage :=
    match fetched with
    | some doc =>
      match firstFuelHref doc.fuelHrefs with
      | some h => some (resolveHref h)
      | none => none
    | none => none
  match fromPage with
  | some u => some u
  | none =>
    if strContains club_url "/club/" then some (club_url ++ "/fuel-center")
    else none

/-! ### Price extraction (`get_gas_prices`, `get_gas_prices_fallback`) -/

/-- One card matched by a fallback selector family: the stripped text
of the first matching inner fuel-type selector and of the first
matching inner price selector, when any. -/
structure FallbackCard where
  fuelHit : Option String
  priceHit : Option String

/-- A fetched fuel page, abstracted to the queries the price pipeline
makes: the primary `find_all` cards (fuel-label text and price text,
none when the inner `find` returns no element, which raises and skips
the card), the cards matched by each fallback selector family, in
order, and the `re.findall` currency-shaped tokens of the page text. -/
structure PriceDoc where
  primaryCards : List (Option String × Option String)
  fallbackFamilies : List (List FallbackCard)
  currencyTokens : List String

/-- One primary card: kept iff both inner elements exist (else the
`AttributeError` is caught and the card skipped) and both texts are
truthy. -/
def primaryRow (card : Option String × Option String) : Option (String × String) :=
  match card with
  | (some f, some p) => if f ≠ "" ∧ p ≠ "" then some (f, p) else none
  | _ => none

/-- One fallback card: label defaults to `"Unknown"`, price to `"NAN"`;
kept iff label and price are truthy and the price is not `"NAN"`. -/
def fallbackRow (card : FallbackCard) : Option (String × String) :=
  let ft := match card.fuelHit with | some t => t | none => "Unknown"
  let pr := match card.priceHit with | some t => t | none => "NAN"
  if ft ≠ "" ∧ pr ≠ "" ∧ pr ≠ "NAN" then some (ft, pr) else none

/-- The fallback family loop: the first selector family returning ≥ 1
card is processed and the loop breaks. -/
def firstNonemptyFamily : List (List FallbackCard) → List FallbackCard
  | [] => []
  | fam :: rest => if fam.isEmpty then firstNonemptyFamily rest else fam

/-- `get_gas_prices_fallback`: rows from the first non-empty selector
family; when that yields none, every currency-shaped token of the page
text tagged `"Unknown"`. -/
def get_gas_prices_fallback (doc : PriceDoc) : List (String × String) :=
  let prices := (firstNonemptyFamily doc.fallbackFamilies).filterMap fallbackRow
  if prices.isEmpty then doc.currencyTokens.map (fun p => ("Unknown", p))
  else prices

/-- `get_gas_prices`: transport failure is caught and returned as the
single `("Error", message)` row; otherwise the primary pass, then the
fallback pass, and a single `("No prices found", "NAN")` row when both
yield nothing. -/
def get_gas_prices (fetched : Except String PriceDoc) : List (String × String) :=
  match fetched with
  | .error e => [("Error", e)]
  | .ok doc =>
    let prices := doc.primaryCards.filterMap primaryRow
    let prices2 := if prices.isEmpty then get_gas_prices_fallback doc else prices
    if prices2.isEmpty then [("No prices found", "NAN")] else prices2

/-! ### Aggregator (`identify_lowest_prices`) -/

/-- Numeric value of a list of decimal digit characters. -/
def natOfDigits (cs : List Char) : Nat :=
  cs.foldl (fun n c => 10 * n + (c.toNat - 48)) 0

/-- A Python float as the aggregator sees it: a finite value (its
exact decimal rational), `nan`, or a signed infinity. -/
inductive PyFloat where
  | finite (q : ℚ)
  | nan
  | inf
  | ninf
deriving DecidableEq

/-- Python `<` on floats: every comparison involving `nan` is false;
`-inf <` everything else `< inf`. -/
def pyLt : PyFloat → PyFloat → Bool
  | .nan, _ => false
  | _, .nan => false
  | .finite a, .finite b => decide (a < b)
  | .finite _, .inf => true
  | .finite _, .ninf => false
  | .inf, _ => false
  | .ninf, .ninf => false
  | .ninf, _ => true

/-- The ASCII whitespace `float()` strips from both ends. -/
def isPySpace (c : Char) : Bool :=
  c == ' ' || c == '\t' || c == '\n' || c == '\r' || c == '\x0b' || c == '\x0c'

def stripSpaces (cs : List Char) : List Char :=
  ((cs.dropWhile isPySpace).reverse.dropWhile isPySpace).reverse

/-- Rest of a Python `digitpart` after its first digit: digits with
single underscores strictly between digits; underscores removed. -/
def digitPartAux : List Char → Option (List Char)
  | [] => some []
  | '_' :: c :: rest => if c.isDigit then (digitPartAux rest).map (c :: ·) else none
  | ['_'] => none
  | c :: rest => if c.isDigit then (digitPartAux rest).map (c :: ·) else none

/-- A Python `digitpart` (`digit (["_"] digit)*`), underscores removed. -/
def digitPart? : List Char → Option (List Char)
  | [] => none
  | c :: rest => if c.isDigit then (digitPartAux rest).map (c :: ·) else none

/-- Split at the first `e`/`E`, when any (the exponent marker). -/
def splitOnExp : List Char → List Char × Option (List Char)
  | [] => ([], none)
  | c :: rest =>
    if c == 'e' || c == 'E' then ([], some rest)
    else
      let (m, e) := splitOnExp rest
      (c :: m, e)

/-- A Python float mantissa `digitpart ["." [digitpart]] | "." digitpart`:
the digits as one integer plus the fractional-digit count. -/
def mantissa? (cs : List Char) : Option (Nat × Nat) :=
  let ip := cs.takeWhile (fun c => c ≠ '.')
  let rest := cs.dropWhile (fun c => c ≠ '.')
  match rest with
  | [] => (digitPart? ip).map (fun ds => (natOfDigits ds, 0))
  | _ :: frac =>
    match ip, frac with
    | [], [] => none
    | [], f => (digitPart? f).map (fun ds => (natOfDigits ds, ds.length))
    | i, [] => (digitPart? i).map (fun ds => (natOfDigits ds, 0))
    | i, f =>
      match digitPart? i, digitPart? f with
      | some di, some df =>
        some (natOfDigits di * 10 ^ df.length + natOfDigits df, df.length)
      | _, _ => none

/-- A Python float exponent: `["+" | "-"] digitpart`. -/
def expPart? : List Char → Option Int
  | '+' :: rest => (digitPart? rest).map (fun ds => (natOfDigits ds : Int))
  | '-' :: rest => (digitPart? rest).map (fun ds => -(natOfDigits ds : Int))
  | cs => (digitPart? cs).map (fun ds => (natOfDigits ds : Int))

/-- The signed exact value `±num × 10 ^ (ex - fl)`. -/
def decValue (neg : Bool) (num fl : Nat) (ex : Int) : ℚ :=
  let n : Int := if neg then -(num : Int) else (num : Int)
  let e : Int := ex - (fl : Int)
  if 0 ≤ e then Rat.divInt (n * 10 ^ e.toNat) 1
  else Rat.divInt n (10 ^ (-e).toNat)

/-- The body of `float()` after the optional sign: case-insensitive
`inf`/`infinity`/`nan`, else mantissa with optional exponent. -/
def pyFloatUnsigned? (neg : Bool) (cs : List Char) : Option PyFloat :=
  let low := cs.map Char.toLower
  if low = ['i', 'n', 'f'] ∨ low = ['i', 'n', 'f', 'i', 'n', 'i', 't', 'y'] then
    some (if neg then .ninf else .inf)
  else if low = ['n', 'a', 'n'] then some .nan
  else
    let (m, e) := splitOnExp cs
    match mantissa? m with
    | none => none
    | some (num, fl) =>
      match e with
      | none => some (.finite (decValue neg num fl 0))
      | some ecs => (expPart? ecs).map (fun ex => .finite (decValue neg num fl ex))

/-- Python's `float(s)` on ASCII strings: strip whitespace, optional
sign, then `inf`/`infinity`/`nan` or a decimal with optional
underscores and exponent; `none` where `float` raises `ValueError`.
Finite results are the exact decimal rationals (rounding to double,
and overflow/underflow of huge exponents, are not modelled; the
program's prices stay far from both). -/
def pyFloat? (s : String) : Option PyFloat :=
  match stripSpaces s.data with
  | '+' :: rest => pyFloatUnsigned? false rest
  | '-' :: rest => pyFloatUnsigned? true rest
  | cs => pyFloatUnsigned? false cs

/-- `float(price.replace('$', '').replace(',', ''))`. In particular
`parsePrice "NAN" = some .nan` — Python's `float("NAN")` does not
raise. -/
def parsePrice (price : String) : Option PyFloat :=
  pyFloat? ⟨price.data.filter (fun c => c ≠ '$' ∧ c ≠ ',')⟩

/-- One per-club entry of `clubs_data` as `identify_lowest_prices`
reads it. -/
structure ClubData where
  name : String
  address : String
  prices : List (String × String)

/-- One value of the `price_categories` dict. -/
structure LowEntry where
  price : PyFloat
  club : String
  address : String
deriving DecidableEq

/-- The dict update in `identify_lowest_prices`: insert the category on
first sight, else replace the entry in place when strictly cheaper
under Python float comparison. -/
def insertLowest (acc : List (String × LowEntry)) (ft : String) (pv : PyFloat)
    (club addr : String) : List (String × LowEntry) :=
  if (acc.map Prod.fst).contains ft then
    acc.map (fun e => if e.1 = ft ∧ pyLt pv e.2.price = true then (ft, ⟨pv, club, addr⟩) else e)
  else acc ++ [(ft, ⟨pv, club, addr⟩)]

/-- One row of one club in `identify_lowest_prices`: skip the four
filtered categories, skip unparseable prices, else fold into the dict. -/
def processRow (club : ClubData) (acc : List (String × LowEntry))
    (row : String × String) : List (String × LowEntry) :=
  if filteredCategories.contains row.1 then acc
  else
    match parsePrice row.2 with
    | none => acc
    | some pv => insertLowest acc row.1 pv club.name club.address

/-- `identify_lowest_prices` over the whole batch. -/
def identify_lowest_prices (clubs_data : List ClubData) :
    List (String × LowEntry) :=
  clubs_data.foldl (fun acc club => club.prices.foldl (processRow club) acc) []

/-! ### Shared helper lemmas -/

theorem save_club_info_scraping_log (db : DB) (info : ClubInfo) (today now : Nat) :
    (save_club_info db info today now).scraping_log = db.scraping_log := by
  unfold save_club_info; split <;> rfl

theorem save_price_data_scraping_log (db : DB) (club_name : String) (today now : Nat)
    (prices : List (String × String)) :
    (save_price_data db club_name today now prices).scraping_log = db.scraping_log := by
  unfold save_price_data; split <;> rfl

theorem save_club_info_price_history (db : DB) (info : ClubInfo) (today now : Nat) :
    (save_club_info db info today now).price_history = db.price_history := by
  unfold save_club_info; split <;> rfl

/-! ### Claim theorems -/

/-- C2 as the spec states it: `save_price_data` would drop every row
whose category is any of the five sentinel spellings, `"No cached
prices"` included. -/
def specSentinelCategories : List String :=
  ["No prices found", "No cached prices", "No prices available", "Unknown", "Error"]

def savePriceDataDropsAllSpecSentinels : Prop :=
  ∀ (db : DB) (club_name : String) (today now : Nat)
    (prices : List (String × String)),
    (save_price_data db club_name today now prices).price_history =
      db.price_history ++
        (prices.filter (fun p => !(specSentinelCategories.contains p.1))).map
          (fun p => ⟨club_name, p.1, p.2, today, now, "scraped"⟩)

/-- C2 counterexample: the write boundary does **not** drop the
`"No cached prices"` spelling of `NO_DATA_FOUND`; passing the single
row `("No cached prices", "NAN")` to `save_price_data` persists it. -/
theorem save_price_data_spec_sentinels_cex : ¬ savePriceDataDropsAllSpecSentinels := by
  intro h
  have h1 := h emptyDB "X" 0 0 [("No cached prices", "NAN")]
  revert h1
  decide

/-- C2 (amended): `save_price_data` appends exactly the rows whose
category is outside the four-string filter set `{"Error", "No prices
found", "Unknown", "No prices available"}` (tagged with the club, the
date/time and source `'scraped'`) and drops exactly the rows inside
it; the `"No cached prices"` spelling is not filtered. -/
theorem save_price_data_drops_exactly_filtered (db : DB) (club_name : String)
    (today now : Nat) (prices : List (String × String)) :
    (save_price_data db club_name today now prices).price_history =
      db.price_history ++
        (prices.filter (fun p => !(filteredCategories.contains p.1))).map
          (fun p => ⟨club_name, p.1, p.2, today, now, "scraped"⟩) := by
  unfold save_price_data
  split
  · next h =>
    rw [List.isEmpty_iff.mp h]
    simp
  · rfl

/-- C10: `add_manual_prices` appends its row to the price history
unconditionally, with provenance `'manual'`, whatever the category —
while the scraped write path (`save_price_data`) drops the same
category when it is in the sentinel filter set. -/
theorem add_manual_prices_unconditional (db : DB) (club_name fuel_type price : String)
    (today now : Nat) :
    (add_manual_prices db club_name fuel_type price today now).price_history =
      db.price_history ++ [⟨club_name, fuel_type, price, today, now, "manual"⟩] ∧
    (filteredCategories.contains fuel_type = true →
      (save_price_data db club_name today now [(fuel_type, price)]).price_history =
        db.price_history) := by
  refine ⟨rfl, fun h => ?_⟩
  rw [save_price_data_drops_exactly_filtered]
  simp [List.elem_iff.mp h]

/-- C10 witness: a sentinel-category manual row is persisted while the
same row is dropped on the scraped path. -/
theorem add_manual_prices_unconditional_witness :
    (add_manual_prices emptyDB "A" "Unknown" "NAN" 7 1).price_history =
      [⟨"A", "Unknown", "NAN", 7, 1, "manual"⟩] ∧
    (save_price_data emptyDB "A" 7 1 [("Unknown", "NAN")]).price_history = [] := by
  have h := add_manual_prices_unconditional emptyDB "A" "Unknown" "NAN" 7 1
  exact ⟨h.1, h.2 (by decide)⟩

/-- C6 as the spec states it: fuel-page discovery on a fetch failure
returns the "no fuel page" result for every URL. -/
def fuelLinkNoneOnFetchFailure : Prop :=
  ∀ club_url : String, get_fuel_link none club_url = none

/-- C6 counterexample: with the page unfetchable, `get_fuel_link`
still synthesizes `club_url + "/fuel-center"` for any URL containing
`"/club/"`. -/
theorem get_fuel_link_fetch_failure_cex : ¬ fuelLinkNoneOnFetchFailure := by
  intro h
  have h1 := h "https://www.samsclub.com/club/4830-avondale-az"
  revert h1
  decide

/-- C6 (amended): a matched link selector returns its resolved href;
otherwise — whether the page was fetched with no selector match **or**
could not be fetched at all — the known path convention synthesizes
`club_url + "/fuel-center"` whenever the URL contains `"/club/"`, and
only a URL without `"/club/"` yields the "no fuel page" result. -/
theorem get_fuel_link_characterization (club_url : String) :
    (get_fuel_link none club_url =
      (if strContains club_url "/club/" then some (club_url ++ "/fuel-center") else none)) ∧
    (∀ doc : LinkDoc, firstFuelHref doc.fuelHrefs = none →
      get_fuel_link (some doc) club_url =
        (if strContains club_url "/club/" then some (club_url ++ "/fuel-center") else none)) ∧
    (∀ (doc : LinkDoc) (h : String), firstFuelHref doc.fuelHrefs = some h →
      get_fuel_link (some doc) club_url = some (resolveHref h)) := by
  refine ⟨rfl, fun doc hnone => ?_, fun doc h hsome => ?_⟩
  · simp [get_fuel_link, hnone]
  · simp [get_fuel_link, hsome]

/-- C6 (amended) witness at concrete inputs: fetch failure on a
`/club/` URL synthesizes, a selector hit resolves its href. -/
theorem get_fuel_link_characterization_witness :
    get_fuel_link none "https://www.samsclub.com/club/4830-avondale-az" =
      some "https://www.samsclub.com/club/4830-avondale-az/fuel-center" ∧
    get_fuel_link (some ⟨[none, some "/x", none, none]⟩) "u" =
      some "https://www.samsclub.com/x" := by
  constructor
  · have h := (get_fuel_link_characterization "https://www.samsclub.com/club/4830-avondale-az").1
    rw [h]
    decide
  · have h := (get_fuel_link_characterization "u").2.2 ⟨[none, some "/x", none, none]⟩ "/x" rfl
    rw [h]
    decide

/-- C5 as the spec states it: selectors first, then the regex scan of
the page text, and the known fallback address only if neither
succeeded. -/
def addressStrategyOrderClaim : Prop :=
  ∀ (doc : ClubDoc) (club_url club_name : String),
    (∀ t, firstSelectorHit doc address_selectors = some t →
      (get_club_info (some doc) club_url club_name).address = t) ∧
    (firstSelectorHit doc address_selectors = none →
      ∀ m, doc.addrRegexHit = some m →
        (get_club_info (some doc) club_url club_name).address = m) ∧
    (firstSelectorHit doc address_selectors = none → doc.addrRegexHit = none →
      (get_club_info (some doc) club_url club_name).address = knownAddress club_name)

/-- C5 counterexample: on a page where no selector matches but the
regex scan finds "Phoenix, AZ 85001", `get_club_info` for a club with
a known fallback ("Avondale") returns the fallback, not the regex
match — the fallback pre-empts the regex scan. -/
theorem get_club_info_strategy_cex : ¬ addressStrategyOrderClaim := by
  intro h
  have h2 := (h ⟨fun _ => none, some "Phoenix, AZ 85001"⟩ "u" "Avondale").2.1 rfl
    "Phoenix, AZ 85001" rfl
  have h3 : (get_club_info (some ⟨fun _ => none, some "Phoenix, AZ 85001"⟩)
      "u" "Avondale").address = "Avondale, AZ" := rfl
  rw [h3] at h2
  exact absurd h2 (by decide)

/-- C5 (amended): the strategies apply in the order (1) structural
selectors, first match wins (unless the matched text is literally
`"NAN"`); (2) if no selector matched, the known fallback address when
one exists; (3) the regex scan of the page text only when the address
is still `"NAN"` — no selector match and no known fallback; (4)
`"NAN"` when all fail. On fetch failure the known fallback (or
`"NAN"`) is used. -/
theorem get_club_info_strategy (doc : ClubDoc) (club_url club_name : String) :
    (∀ t, firstSelectorHit doc address_selectors = some t → t ≠ "NAN" →
      (get_club_info (some doc) club_url club_name).address = t) ∧
    (firstSelectorHit doc address_selectors = none → knownAddress club_name ≠ "NAN" →
      (get_club_info (some doc) club_url club_name).address = knownAddress club_name) ∧
    (firstSelectorHit doc address_selectors = none → knownAddress club_name = "NAN" →
      (get_club_info (some doc) club_url club_name).address =
        (match doc.addrRegexHit with | some m => m | none => "NAN")) ∧
    (get_club_info none club_url club_name).address = knownAddress club_name := by
  refine ⟨fun t ht hne => ?_, fun hn hka => ?_, fun hn hka => ?_, rfl⟩
  · simp only [get_club_info, ht]
    rw [if_neg]
    simp [hne]
  · simp only [get_club_info, hn]
    rw [if_neg]
    simp [hka]
  · simp only [get_club_info, hn, hka]
    rw [if_pos (by decide : (("NAN" : String) == "NAN") = true)]

/-- C5 (amended) witness: a selector hit wins; a fallback club gets
its fallback when no selector matches; an unknown club gets the regex
match. -/
theorem get_club_info_strategy_witness :
    (get_club_info (some ⟨fun s => if s == "address" then some "123 Main St" else none, none⟩)
      "u" "Avondale").address = "123 Main St" ∧
    (get_club_info (some ⟨fun _ => none, some "Phoenix, AZ 85001"⟩)
      "u" "Avondale").address = "Avondale, AZ" ∧
    (get_club_info (some ⟨fun _ => none, some "Phoenix, AZ 85001"⟩)
      "u" "Nowhere").address = "Phoenix, AZ 85001" := by
  refine ⟨?_, ?_, ?_⟩
  · exact (get_club_info_strategy
      ⟨fun s => if s == "address" then some "123 Main St" else none, none⟩
      "u" "Avondale").1 "123 Main St" rfl (by decide)
  · exact ((get_club_info_strategy ⟨fun _ => none, some "Phoenix, AZ 85001"⟩
      "u" "Avondale").2.1 rfl (by decide)).trans (by decide)
  · exact (get_club_info_strategy ⟨fun _ => none, some "Phoenix, AZ 85001"⟩
      "u" "Nowhere").2.2.1 rfl (by decide)

/-- C8: price extraction is total and never returns an empty list — a
transport failure becomes exactly the single `("Error", message)` row,
and a fetched document on which both the primary and the fallback
passes yield nothing becomes exactly the single
`("No prices found", "NAN")` row. -/
theorem get_gas_prices_never_empty (fetched : Except String PriceDoc) :
    get_gas_prices fetched ≠ [] ∧
    (∀ e, fetched = .error e → get_gas_prices fetched = [("Error", e)]) ∧
    (∀ doc, fetched = .ok doc → doc.primaryCards.filterMap primaryRow = [] →
      get_gas_prices_fallback doc = [] →
      get_gas_prices fetched = [("No prices found", "NAN")]) := by
  refine ⟨?_, fun e he => by subst he; rfl,
    fun doc hd h1 h2 => by subst hd; simp [get_gas_prices, h1, h2]⟩
  cases fetched with
  | error e => simp [get_gas_prices]
  | ok doc =>
    simp only [get_gas_prices]
    repeat' split
    all_goals simp_all

/-- C8 witness: the transport-failure and checked-empty shapes at
concrete inputs. -/
theorem get_gas_prices_never_empty_witness :
    get_gas_prices (.error "Timeout") = [("Error", "Timeout")] ∧
    get_gas_prices (.ok ⟨[], [], []⟩) = [("No prices found", "NAN")] :=
  ⟨(get_gas_prices_never_empty (.error "Timeout")).2.1 "Timeout" rfl,
   (get_gas_prices_never_empty (.ok ⟨[], [], []⟩)).2.2 ⟨[], [], []⟩ rfl rfl rfl⟩

/-- Helper: reconciliation appends exactly one `scraping_log` row,
whose success flag is the classification of the extracted prices. -/
theorem reconcile_scraping_log (db : DB) (name : String) (today now : Nat)
    (info : ClubInfo) (prices : List (String × String)) :
    ∃ err found,
      ((reconcile db name today now info prices).1).scraping_log =
        db.scraping_log ++ [⟨name, today, now, classify_success prices, err, found⟩] := by
  by_cases hcl : classify_success prices = true
  · refine ⟨none, prices.length, ?_⟩
    simp [reconcile, hcl, save_price_data_scraping_log, save_club_info_scraping_log,
      log_scraping_attempt]
  · rw [Bool.not_eq_true] at hcl
    refine ⟨some "No valid prices found", 0, ?_⟩
    simp [reconcile, hcl, save_price_data_scraping_log, save_club_info_scraping_log,
      log_scraping_attempt]

/-- C3: for a really-scraped location, the attempt is recorded as
successful iff the extracted row list is non-empty and is not exactly
one `("Error", _)` or `("No prices found", _)` sentinel row. -/
theorem reconcile_success_iff (db : DB) (name : String) (today now : Nat)
    (info : ClubInfo) (prices : List (String × String)) :
    (∃ err found,
      ((reconcile db name today now info prices).1).scraping_log =
        db.scraping_log ++ [⟨name, today, now, classify_success prices, err, found⟩]) ∧
    ((reconcile db name today now info prices).2.1 = classify_success prices) ∧
    (classify_success prices = true ↔
      prices ≠ [] ∧ ∀ v, prices ≠ [("Error", v)] ∧ prices ≠ [("No prices found", v)]) := by
  refine ⟨reconcile_scraping_log db name today now info prices, rfl, ?_⟩
  match prices with
  | [] => simp [classify_success]
  | [(c, v)] =>
    have hiff : classify_success [(c, v)] = true ↔ (c ≠ "Error" ∧ c ≠ "No prices found") := by
      simp [classify_success]
    rw [hiff]
    constructor
    · rintro ⟨h1, h2⟩
      exact ⟨by simp, fun w => ⟨by simp [h1], by simp [h2]⟩⟩
    · intro h
      exact ⟨fun hce => (h.2 v).1 (by rw [hce]), fun hcn => (h.2 v).2 (by rw [hcn])⟩
  | (a :: b :: t) => simp [classify_success]

/-- C3 witness: the classification at a concrete sentinel row and at a
concrete real row. -/
theorem reconcile_success_iff_witness :
    (reconcile emptyDB "A" 7 3 ⟨"A", "a", "u", "f"⟩ [("No prices found", "NAN")]).2.1 =
      classify_success [("No prices found", "NAN")] ∧
    ¬ (classify_success [("No prices found", "NAN")] = true) ∧
    classify_success [("Regular", "$3.45")] = true := by
  refine ⟨(reconcile_success_iff emptyDB "A" 7 3 ⟨"A", "a", "u", "f"⟩
    [("No prices found", "NAN")]).2.1, ?_, ?_⟩
  · intro hcl
    have h := (reconcile_success_iff emptyDB "A" 7 3 ⟨"A", "a", "u", "f"⟩
      [("No prices found", "NAN")]).2.2.mp hcl
    exact (h.2 "NAN").2 rfl
  · exact (reconcile_success_iff emptyDB "A" 7 3 ⟨"A", "a", "u", "f"⟩
      [("Regular", "$3.45")]).2.2.mpr ⟨by simp, fun w => ⟨by simp, by simp⟩⟩

/-- Helper: a non-empty extraction result all of whose rows carry the
`"Unknown"` category classifies as successful. -/
theorem classify_success_all_unknown (prices : List (String × String))
    (hne : prices ≠ []) (hall : ∀ p ∈ prices, p.1 = "Unknown") :
    classify_success prices = true := by
  match prices with
  | [] => exact absurd rfl hne
  | [(c, v)] =>
    have hc : c = "Unknown" := hall (c, v) (List.mem_singleton_self _)
    subst hc
    rfl
  | (a :: b :: t) => rfl

/-- C9: a real scrape whose rows are all tagged `"Unknown"` is recorded
as a successful attempt with `prices_found` equal to the row count,
yet persists zero observations — the success classification and the
write boundary use different sentinel sets. -/
theorem unknown_rows_success_but_nothing_saved (db : DB) (name : String)
    (today now : Nat) (info : ClubInfo) (prices : List (String × String))
    (hne : prices ≠ []) (hall : ∀ p ∈ prices, p.1 = "Unknown") :
    (reconcile db name today now info prices).2.1 = true ∧
    ((reconcile db name today now info prices).1).scraping_log =
      db.scraping_log ++ [⟨name, today, now, true, none, prices.length⟩] ∧
    ((reconcile db name today now info prices).1).price_history = db.price_history := by
  have hcl := classify_success_all_unknown prices hne hall
  have hne' : prices.isEmpty = false := by
    cases prices with
    | nil => exact absurd rfl hne
    | cons a t => rfl
  refine ⟨by simp [reconcile, hcl], ?_, ?_⟩
  · simp [reconcile, hcl, save_price_data_scraping_log, save_club_info_scraping_log,
      log_scraping_attempt]
  · simp only [reconcile, hcl, if_true, save_price_data, hne', Bool.false_eq_true,
      if_false, save_club_info_price_history, log_scraping_attempt]
    simp
    intro a b hab
    have ha : a = "Unknown" := hall (a, b) hab
    rw [ha]
    decide

/-- C9 witness: one `("Unknown", "$3.19")` row on an empty store. -/
theorem unknown_rows_success_but_nothing_saved_witness :
    (reconcile emptyDB "A" 7 3 ⟨"A", "a", "u", "f"⟩ [("Unknown", "$3.19")]).2.1 = true ∧
    ((reconcile emptyDB "A" 7 3 ⟨"A", "a", "u", "f"⟩
      [("Unknown", "$3.19")]).1).scraping_log = [⟨"A", 7, 3, true, none, 1⟩] ∧
    ((reconcile emptyDB "A" 7 3 ⟨"A", "a", "u", "f"⟩
      [("Unknown", "$3.19")]).1).price_history = [] := by
  have h := unknown_rows_success_but_nothing_saved emptyDB "A" 7 3 ⟨"A", "a", "u", "f"⟩
    [("Unknown", "$3.19")] (by decide) (by decide)
  exact ⟨h.1, h.2.1, h.2.2⟩

/-! ### C1: monotonicity of the daily skip-check -/

/-- The database-writing operations of the core, as one step type. -/
inductive CoreOp where
  | logAttempt (club_name : String) (success : Bool)
      (error_message : Option String) (prices_found : Nat)
  | savePrices (club_name : String) (prices : List (String × String))
  | saveManual (club_name fuel_type price : String)
  | saveClub (info : ClubInfo)
  | reconcileStep (club_name : String) (info : ClubInfo)
      (prices : List (String × String))

/-- Apply one core operation to the store at the given date and time. -/
def applyOp (db : DB) (today now : Nat) : CoreOp → DB
  | .logAttempt n s e f => log_scraping_attempt db n today now s e f
  | .savePrices n ps => save_price_data db n today now ps
  | .saveManual n ft pr => add_manual_prices db n ft pr today now
  | .saveClub i => save_club_info db i today now
  | .reconcileStep n i ps => (reconcile db n today now i ps).1

/-- Helper: every core operation only ever appends to `scraping_log`. -/
theorem applyOp_scraping_log_extends (db : DB) (today now : Nat) (op : CoreOp) :
    ∃ tail, (applyOp db today now op).scraping_log = db.scraping_log ++ tail := by
  cases op with
  | logAttempt n s e f => exact ⟨_, rfl⟩
  | savePrices n ps =>
    exact ⟨[], by rw [List.append_nil]; exact save_price_data_scraping_log db n today now ps⟩
  | saveManual n ft pr => exact ⟨[], by rw [List.append_nil]; rfl⟩
  | saveClub i =>
    exact ⟨[], by rw [List.append_nil]; exact save_club_info_scraping_log db i today now⟩
  | reconcileStep n i ps =>
    obtain ⟨err, found, h⟩ := reconcile_scraping_log db n today now i ps
    exact ⟨_, h⟩

/-- C1: once an attempt is logged for (location, today), the skip-check
returns true, and every further core operation that day (logging,
scraped or manual price writes, profile writes, a full reconciliation
step) keeps it true — nothing removes `scraping_log` rows. -/
theorem already_attempted_monotonic (db : DB) (club_name : String) (today now : Nat)
    (success : Bool) (err : Option String) (found : Nat) :
    check_if_scraped_today (log_scraping_attempt db club_name today now success err found)
      club_name today = true ∧
    (∀ (op : CoreOp) (now2 : Nat), check_if_scraped_today db club_name today = true →
      check_if_scraped_today (applyOp db today now2 op) club_name today = true) := by
  constructor
  · unfold check_if_scraped_today log_scraping_attempt
    rw [decide_eq_true_eq]
    simp only [List.countP_append]
    have : List.countP
        (fun (r : LogRow) => r.club_name == club_name && r.scraped_date == today)
        ([⟨club_name, today, now, success, err, found⟩] : List LogRow) = 1 := by
      simp [List.countP_cons]
    omega
  · intro op now2 h
    obtain ⟨tail, htail⟩ := applyOp_scraping_log_extends db today now2 op
    unfold check_if_scraped_today at h ⊢
    rw [decide_eq_true_eq] at h ⊢
    rw [htail, List.countP_append]
    omega

/-- C1 witness: log an attempt on an empty store, check it is seen,
then apply a manual write the same day and check again. -/
theorem already_attempted_monotonic_witness :
    check_if_scraped_today (log_scraping_attempt emptyDB "A" 7 1 true none 2) "A" 7 = true ∧
    check_if_scraped_today
      (applyOp (log_scraping_attempt emptyDB "A" 7 1 true none 2) 7 2
        (.saveManual "A" "Unknown" "NAN")) "A" 7 = true := by
  refine ⟨(already_attempted_monotonic emptyDB "A" 7 1 true none 2).1, ?_⟩
  exact (already_attempted_monotonic (log_scraping_attempt emptyDB "A" 7 1 true none 2)
    "A" 7 1 true none 2).2 (.saveManual "A" "Unknown" "NAN") 2 (by decide)

/-! ### C7: the aggregator only reports categories with real rows -/

/-- Helper: an entry of `insertLowest acc ft pv club addr` is an old
accumulator entry or carries the inserted category. -/
theorem mem_insertLowest (acc : List (String × LowEntry)) (ft : String) (pv : PyFloat)
    (club addr : String) (x : String × LowEntry)
    (hx : x ∈ insertLowest acc ft pv club addr) : x ∈ acc ∨ x.1 = ft := by
  unfold insertLowest at hx
  split at hx
  · obtain ⟨y, hy, hxy⟩ := List.mem_map.mp hx
    by_cases hc : y.1 = ft ∧ pyLt pv y.2.price = true
    · rw [if_pos hc] at hxy
      right
      rw [← hxy]
    · rw [if_neg hc] at hxy
      left
      rw [← hxy]
      exact hy
  · rcases List.mem_append.mp hx with h | h
    · exact Or.inl h
    · right
      rw [List.mem_singleton.mp h]

/-- Helper: an entry of `processRow` is an old accumulator entry or
carries the row's category, which then passed the sentinel filter. -/
theorem mem_processRow (club : ClubData) (acc : List (String × LowEntry))
    (row : String × String) (x : String × LowEntry)
    (hx : x ∈ processRow club acc row) :
    x ∈ acc ∨ (x.1 = row.1 ∧ filteredCategories.contains row.1 = false) := by
  unfold processRow at hx
  split at hx
  · exact Or.inl hx
  · next hsent =>
    split at hx
    · exact Or.inl hx
    · next pv _ =>
      rcases mem_insertLowest acc row.1 pv club.name club.address x hx with h | h
      · exact Or.inl h
      · exact Or.inr ⟨h, Bool.eq_false_iff.mpr hsent⟩

/-- Helper: folding `processRow` over a club's rows only adds entries
whose category appears in a non-sentinel row of that list. -/
theorem mem_foldl_processRow (club : ClubData) :
    ∀ (rows : List (String × String)) (acc : List (String × LowEntry))
      (x : String × LowEntry), x ∈ rows.foldl (processRow club) acc →
      x ∈ acc ∨ (filteredCategories.contains x.1 = false ∧ ∃ v, (x.1, v) ∈ rows)
  | [], acc, x, hx => Or.inl hx
  | r :: rs, acc, x, hx => by
    rcases mem_foldl_processRow club rs (processRow club acc r) x hx with h | ⟨hs, v, hv⟩
    · rcases mem_processRow club acc r x h with h' | ⟨h1, h2⟩
      · exact Or.inl h'
      · refine Or.inr ⟨h1 ▸ h2, r.2, ?_⟩
        rw [h1]
        simp
    · exact Or.inr ⟨hs, v, List.mem_cons_of_mem r hv⟩

/-- Helper: folding over the whole batch only adds entries whose
category appears in a non-sentinel row of some club. -/
theorem mem_foldl_clubs :
    ∀ (clubs : List ClubData) (acc : List (String × LowEntry)) (x : String × LowEntry),
      x ∈ clubs.foldl (fun acc club => club.prices.foldl (processRow club) acc) acc →
      x ∈ acc ∨ (filteredCategories.contains x.1 = false ∧
        ∃ club ∈ clubs, ∃ v, (x.1, v) ∈ club.prices)
  | [], acc, x, hx => Or.inl hx
  | c :: cs, acc, x, hx => by
    rcases mem_foldl_clubs cs _ x hx with h | ⟨hs, club, hclub, v, hv⟩
    · rcases mem_foldl_processRow c c.prices acc x h with h' | ⟨hs, v, hv⟩
      · exact Or.inl h'
      · exact Or.inr ⟨hs, c, List.mem_cons_self c cs, v, hv⟩
    · exact Or.inr ⟨hs, club, List.mem_cons_of_mem c hclub, v, hv⟩

/-- C7 as the spec states it: with "sentinel" the spec's full taxonomy
(`specSentinelCategories`, the `'No cached prices'` spelling
included), every category `identify_lowest_prices` returns comes from
at least one non-sentinel row of the batch. -/
def lowestOnlySpecNonSentinelClaim : Prop :=
  ∀ (clubs_data : List ClubData) (ft : String) (e : LowEntry),
    (ft, e) ∈ identify_lowest_prices clubs_data →
    ∃ club ∈ clubs_data, ∃ v, (ft, v) ∈ club.prices ∧
      specSentinelCategories.contains ft = false

/-- C7 counterexample: a batch whose only row is the cache-skip
sentinel `("No cached prices", "NAN")` — the category is missing from
the code's four-string filter, `float("NAN")` parses to `nan`, and the
aggregator returns that sentinel category with price `nan`. -/
theorem lowest_prices_spec_sentinel_cex : ¬ lowestOnlySpecNonSentinelClaim := by
  intro h
  obtain ⟨club, hclub, v, hv, hcontains⟩ :=
    h [⟨"A", "a", [("No cached prices", "NAN")]⟩] "No cached prices"
      ⟨.nan, "A", "a"⟩ (by decide)
  exact absurd hcontains (by decide)

/-- C7 (amended): every category in the result of
`identify_lowest_prices` is outside the code's four-string filter list
`{"Error", "No prices found", "Unknown", "No prices available"}` and
stems from at least one row of the batch; the `'No cached prices'`
spelling is not filtered, so a category whose only observed values
were such sentinel rows can be returned. -/
theorem lowest_prices_only_non_sentinel (clubs_data : List ClubData)
    (ft : String) (e : LowEntry)
    (hmem : (ft, e) ∈ identify_lowest_prices clubs_data) :
    filteredCategories.contains ft = false ∧
    ∃ club ∈ clubs_data, ∃ v, (ft, v) ∈ club.prices := by
  rcases mem_foldl_clubs clubs_data [] (ft, e) hmem with h | ⟨hs, club, hclub, v, hv⟩
  · exact absurd h (List.not_mem_nil _)
  · exact ⟨hs, club, hclub, v, hv⟩

/-- C7 (amended) witness: a concrete batch whose single reported
category comes from a real row. -/
theorem lowest_prices_only_non_sentinel_witness :
    filteredCategories.contains "Regular" = false ∧
    ∃ club ∈ [(⟨"A", "addrA", [("Regular", "$3.45"), ("Error", "x")]⟩ : ClubData)],
      ∃ v, ("Regular", v) ∈ club.prices :=
  lowest_prices_only_non_sentinel
    [⟨"A", "addrA", [("Regular", "$3.45"), ("Error", "x")]⟩]
    "Regular" ⟨.finite (Rat.divInt 345 100), "A", "addrA"⟩ (by decide)

/-! ### C4: `get_latest_prices` returns the newest value per category -/

theorem keyGe_refl (a : PriceRow) : keyGe a a := Or.inr ⟨rfl, le_refl _⟩

/-- Helper: the dict build keeps category keys distinct. -/
theorem dedupFirst_keys_nodup :
    ∀ (l acc : List (String × String)),
      (acc.map Prod.fst).Nodup → ((dedupFirst acc l).map Prod.fst).Nodup
  | [], _, h => h
  | (c, v) :: rest, acc, h => by
    unfold dedupFirst
    split
    · exact dedupFirst_keys_nodup rest acc h
    · next hc =>
      refine dedupFirst_keys_nodup rest (acc ++ [(c, v)]) ?_
      rw [List.map_append]
      simp only [List.map_cons, List.map_nil]
      rw [List.nodup_append]
      refine ⟨h, List.nodup_singleton c, ?_⟩
      intro a ha hb
      rw [List.mem_singleton.mp hb] at ha
      exact hc (List.elem_iff.mpr ha)

/-- Helper: an entry of the dict build is an accumulator entry or the
first occurrence of its category in the input. -/
theorem dedupFirst_mem :
    ∀ (l acc : List (String × String)) (c v : String),
      (c, v) ∈ dedupFirst acc l →
      (c, v) ∈ acc ∨
        (c ∉ acc.map Prod.fst ∧ l.find? (fun p => p.1 == c) = some (c, v))
  | [], _, _, _, h => Or.inl h
  | (c', v') :: rest, acc, c, v, h => by
    unfold dedupFirst at h
    split at h
    · next hcont =>
      rcases dedupFirst_mem rest acc c v h with h' | ⟨hnot, hfind⟩
      · exact Or.inl h'
      · refine Or.inr ⟨hnot, ?_⟩
        have hne : ¬((fun p => p.1 == c) (c', v') = true) := by
          show ¬(c' == c) = true
          intro hbeq
          exact hnot (beq_iff_eq.mp hbeq ▸ List.elem_iff.mp hcont)
        rw [List.find?_cons_of_neg (p := fun (q : String × String) => q.1 == c) _ hne]
        exact hfind
    · next hc =>
      rcases dedupFirst_mem rest (acc ++ [(c', v')]) c v h with h' | ⟨hnot, hfind⟩
      · rcases List.mem_append.mp h' with ha | hb
        · exact Or.inl ha
        · have heq := List.mem_singleton.mp hb
          have hcc : c = c' := congrArg Prod.fst heq
          refine Or.inr ⟨fun hin => hc (List.elem_iff.mpr (hcc ▸ hin)), ?_⟩
          have hp : ((fun p => p.1 == c) (c', v')) = true := by
            show (c' == c) = true
            exact beq_iff_eq.mpr hcc.symm
          rw [List.find?_cons_of_pos (p := fun (q : String × String) => q.1 == c) _ hp]
          exact congrArg some heq.symm
      · refine Or.inr ⟨?_, ?_⟩
        · intro hin
          exact hnot (by rw [List.map_append]; exact List.mem_append_left _ hin)
        · have hne : ¬((fun p => p.1 == c) (c', v') = true) := by
            show ¬(c' == c) = true
            intro hbeq
            apply hnot
            rw [List.map_append]
            exact List.mem_append_right _ (by simp [beq_iff_eq.mp hbeq])
          rw [List.find?_cons_of_neg (p := fun (q : String × String) => q.1 == c) _ hne]
          exact hfind

/-- Helper: a `find?` hit in a prefix is a `find?` hit in the list. -/
theorem find?_take {α : Type} (p : α → Bool) :
    ∀ (l : List α) (n : Nat) (a : α), (l.take n).find? p = some a → l.find? p = some a
  | [], _, _, h => by simp at h
  | _ :: _, 0, _, h => by simp at h
  | x :: t, n + 1, a, h => by
    rw [List.take_succ_cons] at h
    cases hp : p x with
    | true =>
      rw [List.find?_cons_of_pos _ hp] at h ⊢
      exact h
    | false =>
      have hp' : ¬p x = true := by simp [hp]
      rw [List.find?_cons_of_neg _ hp'] at h ⊢
      exact find?_take p t n a h

/-- Helper: in a list sorted newest-first, the first row found for a
category is at least as new as every row of that category. -/
theorem sorted_find?_newest (c : String) :
    ∀ (l : List PriceRow), List.Sorted keyGe l →
      ∀ r, l.find? (fun x => x.fuel_type == c) = some r →
        ∀ q ∈ l, q.fuel_type = c → keyGe r q
  | [], _, _, _, q, hq, _ => absurd hq (List.not_mem_nil q)
  | x :: t, hs, r, hf, q, hq, hqc => by
    obtain ⟨hall, hst⟩ := List.sorted_cons.mp hs
    cases hp : (x.fuel_type == c) with
    | true =>
      rw [List.find?_cons_of_pos (p := fun (y : PriceRow) => y.fuel_type == c) _ hp] at hf
      have hrx : x = r := Option.some.inj hf
      rcases List.mem_cons.mp hq with rfl | hqt
      · rw [← hrx]
        exact keyGe_refl q
      · exact hrx ▸ hall q hqt
    | false =>
      have hp' : ¬((fun x => x.fuel_type == c) x = true) := by simp [hp]
      rw [List.find?_cons_of_neg (p := fun (y : PriceRow) => y.fuel_type == c) _ hp'] at hf
      rcases List.mem_cons.mp hq with rfl | hqt
      · exact absurd (beq_iff_eq.mpr hqc) (by simp [hp])
      · exact sorted_find?_newest c t hst r hf q hqt hqc

/-- C4: `get_latest_prices` returns at most one value per category
(distinct keys), and each returned value is carried by an observation
row of that club which no other row of that club and category beats on
the (date desc, time desc) chronological order. -/
theorem get_latest_prices_newest (db : DB) (club_name : String) :
    ((get_latest_prices db club_name).map Prod.fst).Nodup ∧
    ∀ c v, (c, v) ∈ get_latest_prices db club_name →
      ∃ r ∈ db.price_history, r.club_name = club_name ∧ r.fuel_type = c ∧
        r.price = v ∧
        ∀ q ∈ db.price_history, q.club_name = club_name → q.fuel_type = c →
          keyGe r q := by
  constructor
  · exact dedupFirst_keys_nodup _ [] (by simp)
  · intro c v hmem
    unfold get_latest_prices at hmem
    rcases dedupFirst_mem _ [] c v hmem with h | ⟨_, hfind⟩
    · exact absurd h (List.not_mem_nil _)
    · rw [List.find?_map] at hfind
      obtain ⟨r, hr1, hr2⟩ := Option.map_eq_some'.mp hfind
      have hft : r.fuel_type = c := congrArg Prod.fst hr2
      have hpr : r.price = v := congrArg Prod.snd hr2
      have hfindS : (List.insertionSort keyGe
          (db.price_history.filter (fun x => x.club_name == club_name))).find?
            (fun x => x.fuel_type == c) = some r := by
        refine find?_take _ _ 10 r ?_
        exact hr1
      have hrS := List.mem_of_find?_eq_some hfindS
      have hrRows := (List.perm_insertionSort keyGe _).mem_iff.mp hrS
      obtain ⟨hrdb, hrclub⟩ := List.mem_filter.mp hrRows
      refine ⟨r, hrdb, beq_iff_eq.mp hrclub, hft, hpr, ?_⟩
      intro q hqdb hqclub hqc
      have hqRows : q ∈ db.price_history.filter (fun x => x.club_name == club_name) :=
        List.mem_filter.mpr ⟨hqdb, beq_iff_eq.mpr hqclub⟩
      have hqS := (List.perm_insertionSort keyGe _).mem_iff.mpr hqRows
      exact sorted_find?_newest c _ (List.sorted_insertionSort keyGe _) r hfindS q hqS hqc

/-- C4 witness: on a concrete history the newest Regular row is
returned and dominates both Regular rows. -/
theorem get_latest_prices_newest_witness :
    ∃ r ∈ (⟨[], [⟨"A", "Regular", "$3.10", 5, 1, "scraped"⟩,
        ⟨"A", "Regular", "$3.50", 6, 2, "scraped"⟩,
        ⟨"A", "Premium", "$4.00", 6, 1, "scraped"⟩,
        ⟨"B", "Regular", "$9.99", 7, 1, "scraped"⟩], []⟩ : DB).price_history,
      r.club_name = "A" ∧ r.fuel_type = "Regular" ∧ r.price = "$3.50" ∧
      ∀ q ∈ (⟨[], [⟨"A", "Regular", "$3.10", 5, 1, "scraped"⟩,
          ⟨"A", "Regular", "$3.50", 6, 2, "scraped"⟩,
          ⟨"A", "Premium", "$4.00", 6, 1, "scraped"⟩,
          ⟨"B", "Regular", "$9.99", 7, 1, "scraped"⟩], []⟩ : DB).price_history,
        q.club_name = "A" → q.fuel_type = "Regular" → keyGe r q :=
  (get_latest_prices_newest
    ⟨[], [⟨"A", "Regular", "$3.10", 5, 1, "scraped"⟩,
      ⟨"A", "Regular", "$3.50", 6, 2, "scraped"⟩,
      ⟨"A", "Premium", "$4.00", 6, 1, "scraped"⟩,
      ⟨"B", "Regular", "$9.99", 7, 1, "scraped"⟩], []⟩ "A").2
    "Regular" "$3.50" (by decide)

end Sams
